import Mathlib

/-!
Verification of the LambdaDB ingestion-and-persistence subsystem.

A shallow embedding of `store.go`: the sequential-label ingestion worker
(`ItemChanWorker`) and the storage-format registry (save/load/restore for the
`bytes`, `bytesz` and `json` formats), together with proofs and refutations of
the specified properties.

Conventions of the embedding:
* Go slices become Lean lists; machine integers become `Nat` (no arithmetic in
  the source relies on overflow or modular behaviour).
* The process-wide mutable globals (`ITEMS`, the model maps, the file system)
  become an explicit state record threaded through each operation.
* Pointer identity (Go's `&smallItem` comparison in the worker) is modelled by
  allocation identifiers: every iteration of the worker allocates a fresh
  identifier, so two pointers are equal exactly when they are the same
  allocation.
* `log.Fatal` and runtime panics are modelled as distinguished terminal
  outcomes rather than as divergence.
* Standard-library codecs (`encoding/gob`, `compress/gzip`, `encoding/json`)
  and the out-of-scope collaborators (record shape, index builders) are not in
  the source tree; they are modelled from the spec, and each such definition
  says so in its doc comment.
-/

namespace LambdaDB

/-! Ingestion worker (`ItemChanWorker`).

The worker consumes batches of optionally-nil input records.  The shape of an
input record is an external collaborator (out of scope per the spec), so it is
modelled opaquely; only nil vs non-nil matters to the worker's control flow. -/

/-- Modelled from the spec: the raw input record `ItemIn` is an external
collaborator; the worker only branches on nil vs non-nil, so its content is an
opaque number. -/
abbrev ItemIn := Nat

/-- State of the process as seen by the ingestion worker.

`items` is the shared collection `ITEMS`, as a list of allocation identifiers
(one per stored `*Item`); `label` is the worker-local label counter;
`heapNext` is the next fresh allocation identifier (all identifiers already in
`items` are smaller); `labeled` is ghost state recording, in order, the
pointer that was assigned each label; `dead` records that `log.Fatal` was
reached (the process terminated). -/
structure WState where
  items : List Nat
  label : Nat
  heapNext : Nat
  labeled : List Nat
  dead : Bool
  deriving DecidableEq, Repr

/-- One iteration of the worker's inner loop, from `store.go` lines 26-38:
shrink the record, store its bit-array columns, append the fresh pointer to
`ITEMS`, fatally abort unless `ITEMS[label]` is that very pointer, build the
geo index entry, increment `label`.

`&smallItem` is a fresh allocation each iteration, modelled by `st.heapNext`.
`Shrink`, `StoreBitArrayColumns` and `GeoIndex` are external collaborators
whose effects live outside the state relevant to the claims.  After
`log.Fatal` the process is dead, so a dead state absorbs all further input.
The out-of-range read `ITEMS[label]` with `label ≥ len(ITEMS)` (a Go panic)
is folded into the dead outcome; it is unreachable from the worker's start
state. -/
def ItemChanWorkerStep (st : WState) (itm : Option ItemIn) : WState :=
  if st.dead then st
  else
    match itm with
    | none => st
    | some _ =>
      let ptr := st.heapNext
      let items := st.items ++ [ptr]
      if items[st.label]? = some ptr then
        { items := items, label := st.label + 1, heapNext := st.heapNext + 1,
          labeled := st.labeled ++ [ptr], dead := false }
      else
        { items := items, label := st.label, heapNext := st.heapNext + 1,
          labeled := st.labeled, dead := true }

/-- Processing one batch (`for _, itm := range items`). -/
def processBatch (st : WState) (batch : List (Option ItemIn)) : WState :=
  batch.foldl ItemChanWorkerStep st

/-- The worker's start state: `label := 0`, empty shared collection. -/
def initialWState : WState :=
  { items := [], label := 0, heapNext := 0, labeled := [], dead := false }

/-- Drain the whole channel (`for items := range itemChan` in
`ItemChanWorker`), given the list of batches received before the channel
closed, starting from the empty shared collection. -/
def ItemChanWorker (batches : List (List (Option ItemIn))) : WState :=
  batches.foldl processBatch initialWState

/-- The worker's state invariant: the process is alive, the collection equals
the label-assignment record, the label counter equals the collection length,
and every stored pointer is older than the next allocation. -/
def WInv (st : WState) : Prop :=
  st.dead = false ∧ st.labeled = st.items ∧ st.label = st.items.length ∧
    ∀ p ∈ st.items, p < st.heapNext

instance (st : WState) : Decidable (WInv st) := by
  unfold WInv; infer_instance

/-- A concrete worker state whose shared collection is already populated
(one item, pointer 5) while the label counter is 0, as after a restore. -/
def wStateC9 : WState :=
  { items := [5], label := 0, heapNext := 7, labeled := [5], dead := false }

/-! Data model of the persistence layer. -/

/-- Modelled from the spec: the compact stored record `Item` is an external
collaborator (out of scope), modelled as a record of serializable numeric
fields. -/
structure Item where
  fields : List Nat
  deriving DecidableEq, Repr

/-- Modelled from the spec: `ModelMaps` is an opaque auxiliary index blob,
treated purely as a serializable value. -/
abbrev ModelMaps := List Nat

/-- The `Store` struct (`store.go` lines 56-59): the unit of serialization,
aggregating the item collection and the model-maps blob. -/
structure Store where
  Items : List Item
  Maps : ModelMaps
  deriving DecidableEq, Repr

/-! The gob codec.  `encoding/gob` is the Go standard library, not part of
this repository; per spec section 4.2 the binary encoding is a generic
structural serialization that reconstructs an equivalent snapshot,
order-preserving for the collection.  It is modelled as an injective
length-prefixed serialization with a total decoder on its image. -/

/-- Modelled from the spec: a length-prefixed blob of numbers. -/
def encBlob (b : List Nat) : List Nat := b.length :: b

/-- Modelled from the spec: read back one length-prefixed blob, returning it
and the remaining bytes. -/
def decBlob : List Nat → Option (List Nat × List Nat)
  | [] => none
  | n :: rest =>
    if n ≤ rest.length then some (rest.take n, rest.drop n) else none

/-- Modelled from the spec: serialize one stored record. -/
def encItem (i : Item) : List Nat := encBlob i.fields

/-- Modelled from the spec: deserialize one stored record. -/
def decItemBlob (b : List Nat) : Option (Item × List Nat) :=
  match decBlob b with
  | some (f, rest) => some ({ fields := f }, rest)
  | none => none

/-- Modelled from the spec: serialize a list of records back to back. -/
def encItems : List Item → List Nat
  | [] => []
  | i :: t => encItem i ++ encItems t

/-- Modelled from the spec: the collection, count-prefixed. -/
def encItemList (l : List Item) : List Nat := l.length :: encItems l

/-- Modelled from the spec: deserialize exactly `n` records. -/
def decItemsN : Nat → List Nat → Option (List Item × List Nat)
  | 0, b => some ([], b)
  | n + 1, b =>
    match decItemBlob b with
    | none => none
    | some (i, b1) =>
      match decItemsN n b1 with
      | none => none
      | some (l, b2) => some (i :: l, b2)

/-- Modelled from the spec: deserialize a count-prefixed collection. -/
def decItemList : List Nat → Option (List Item × List Nat)
  | [] => none
  | n :: rest => decItemsN n rest

/-- Modelled from the spec: gob-encode a `Store` (collection, then maps). -/
def gobEncode (s : Store) : List Nat := encItemList s.Items ++ encBlob s.Maps

/-- Modelled from the spec: gob-decode a `Store`; `none` when the bytes are
not a valid encoding.  Trailing bytes after one full value are ignored, as
gob's stream decoder does. -/
def gobDecode (b : List Nat) : Option Store :=
  match decItemList b with
  | none => none
  | some (items, rest) =>
    match decBlob rest with
    | none => none
    | some (maps, _) => some { Items := items, Maps := maps }

/-- `EncodeItems` (`store.go` lines 141-149): gob-encode the store.  An
encode error would be printed and swallowed, but gob cannot fail on this
type, so the encoding is total. -/
def EncodeItems (s : Store) : List Nat := gobEncode s

/-- `DecodeToStore` (`store.go` lines 170-178): gob-decode into a zero-value
`Store`; a decode error is printed and the zero value returned — the
function reports success either way. -/
def DecodeToStore (b : List Nat) : Store :=
  (gobDecode b).getD { Items := [], Maps := [] }

/-! The gzip codec.  `compress/gzip` is the Go standard library; the spec
requires a lossless compressor whose decompression exactly inverts it.  A
stream is modelled as the two gzip magic header octets followed by the
recoverable payload. -/

/-- Modelled from the spec: wrap a payload in a gzip stream. -/
def gzipWrap (b : List Nat) : List Nat := 31 :: 139 :: b

/-- Modelled from the spec: recover the payload of a gzip stream; `none`
when the magic header is absent (what `gzip.NewReader` rejects). -/
def gzipUnwrap : List Nat → Option (List Nat)
  | 31 :: 139 :: b => some b
  | _ => none

/-- `Compress` (`store.go` lines 151-157). -/
def Compress (s : List Nat) : List Nat := gzipWrap s

/-- `Decompress` (`store.go` lines 159-168): the `gzip.NewReader` error is
discarded, so on a stream without a valid gzip header the reader is nil and
the following `ReadAll` dereferences it — modelled as `none`, which the
caller turns into a runtime panic. -/
def Decompress (s : List Nat) : Option (List Nat) := gzipUnwrap s

/-- Modelled from the spec: `json.Marshal` of a `Store` — value-faithful, an
opening-brace octet followed by the structural serialization. -/
def jsonMarshal (s : Store) : List Nat := 123 :: gobEncode s

/-- Modelled from the spec: `json.Unmarshal` of a full `Store` document;
`none` when the bytes are not such a document. -/
def jsonDecodeOpt : List Nat → Option Store
  | 123 :: rest => gobDecode rest
  | _ => none

/-! Process-wide state and the save/load operations. -/

/-- Process-wide state for the persistence layer: the shared collection
`ITEMS` (here as item values), the model-maps blob, the file system
(filename to contents, newest binding first) and the set of filenames the
operating system refuses to create (modelling `os.Create` and
`ioutil.WriteFile` failures). -/
structure Sys where
  items : List Item
  maps : ModelMaps
  fs : List (String × List Nat)
  badNames : List String
  deriving DecidableEq

/-- Modelled from the spec: `CreateMapstore` captures a fresh view of the
current `ModelMaps`. -/
def CreateMapstore (sys : Sys) : ModelMaps := sys.maps

/-- `makeStore` (`store.go` lines 103-105): aggregate the current collection
and a freshly captured maps view. -/
def makeStore (sys : Sys) : Store :=
  { Items := sys.items, Maps := CreateMapstore sys }

/-- `restoreStore` (`store.go` lines 107-112): `ITEMS = store.Items`, then
`LoadMapstore(store.Maps)` (modelled: install the blob), then
`ITEMS.FillIndexes()` (external index rebuild, no modelled state). -/
def restoreStore (sys : Sys) (store : Store) : Sys :=
  { sys with items := store.Items, maps := store.Maps }

/-- `ReadFromFile` (`store.go` lines 188-198): open and read errors are
printed and swallowed, yielding an empty byte slice. -/
def ReadFromFile (sys : Sys) (filename : String) : List Nat :=
  (sys.fs.lookup filename).getD []

/-- `WriteToFile` (`store.go` lines 180-186): an `os.Create` error is printed
and the write to the nil file silently dropped; otherwise the file is
(re)written. -/
def WriteToFile (sys : Sys) (s : List Nat) (filename : String) : Sys :=
  if filename ∈ sys.badNames then sys
  else { sys with fs := (filename, s) :: sys.fs }

/-- Result of a load operation: the Go pair `(int, error)` together with the
state at return, plus a distinguished outcome for a runtime panic. -/
inductive LoadResult where
  | ok (sys : Sys) (count : Nat)
  | err (sys : Sys) (msg : String)
  | panicked (sys : Sys)
  deriving DecidableEq

/-- Whether a load returned a non-nil error value. -/
def LoadResult.returnsError : LoadResult → Bool
  | .err _ _ => true
  | _ => false

/-- Result of a save operation: the Go pair `(int64, error)` together with
the state at return. -/
inductive SaveResult where
  | ok (sys : Sys) (size : Nat)
  | err (sys : Sys) (msg : String)
  deriving DecidableEq

/-- The process state at return of a save. -/
def SaveResult.sysOf : SaveResult → Sys
  | .ok s _ => s
  | .err s _ => s

/-- `saveAsJsonZipped` (`store.go` lines 82-101): snapshot, marshal (error
discarded), gzip, `ioutil.WriteFile` (error returned), `os.Stat` for the
size. -/
def saveAsJsonZipped (sys : Sys) (filename : String) : SaveResult :=
  let store := makeStore sys
  let itemJSON := jsonMarshal store
  let b := Compress itemJSON
  if filename ∈ sys.badNames then .err sys "WriteFile"
  else
    let sys1 : Sys := { sys with fs := (filename, b) :: sys.fs }
    match sys1.fs.lookup filename with
    | none => .err sys1 "Stat"
    | some bb => .ok sys1 bb.length

/-- `saveAsBytes` (`store.go` lines 114-125). -/
def saveAsBytes (sys : Sys) (filename : String) : SaveResult :=
  let store := makeStore sys
  let data := EncodeItems store
  let sys1 := WriteToFile sys data filename
  match sys1.fs.lookup filename with
  | none => .err sys1 "Stat"
  | some b => .ok sys1 b.length

/-- `saveAsBytesCompressed` (`store.go` lines 127-139). -/
def saveAsBytesCompressed (sys : Sys) (filename : String) : SaveResult :=
  let store := makeStore sys
  let data := Compress (EncodeItems store)
  let sys1 := WriteToFile sys data filename
  match sys1.fs.lookup filename with
  | none => .err sys1 "Stat"
  | some b => .ok sys1 b.length

/-- `loadAsBytes` (`store.go` lines 200-205): read (errors swallowed), decode
(errors swallowed), restore, return `(len(ITEMS), nil)`. -/
def loadAsBytes (sys : Sys) (filename : String) : LoadResult :=
  let d := ReadFromFile sys filename
  let store := DecodeToStore d
  let sys1 := restoreStore sys store
  .ok sys1 sys1.items.length

/-- `loadAsBytesCompressed` (`store.go` lines 207-213): as `loadAsBytes`,
except that `Decompress` panics on a stream without a gzip header. -/
def loadAsBytesCompressed (sys : Sys) (filename : String) : LoadResult :=
  let d := ReadFromFile sys filename
  match Decompress d with
  | none => .panicked sys
  | some d1 =>
    let store := DecodeToStore d1
    let sys1 := restoreStore sys store
    .ok sys1 sys1.items.length

/-- `loadAsJsonZipped` (`store.go` lines 215-244): open and gzip-header
errors are returned to the caller; the decode target is seeded from
`makeStore()` and a failed unmarshal is silently ignored, leaving the
seed. -/
def loadAsJsonZipped (sys : Sys) (filename : String) : LoadResult :=
  match sys.fs.lookup filename with
  | none => .err sys "open"
  | some content =>
    match gzipUnwrap content with
    | none => .err sys "gzip"
    | some payload =>
      let store0 := makeStore sys
      let store := (jsonDecodeOpt payload).getD store0
      let sys1 := restoreStore sys store
      .ok sys1 sys1.items.length

/-- The registered format names, as a closed tag type.  `RETRIEVEFUNCS` and
`STORAGEFUNCS` map names to function values; the embedding dispatches
through tags so outcomes stay decidable. -/
inductive FormatTag where
  | bytes | bytesz | json
  deriving DecidableEq, Repr

/-- The `RETRIEVEFUNCS` registry built in `init()` (`store.go` lines 76-79):
which tag, if any, a format name is registered under. -/
def parseFormat (name : String) : Option FormatTag :=
  if name = "bytes" then some .bytes
  else if name = "bytesz" then some .bytesz
  else if name = "json" then some .json
  else none

/-- Apply the load function registered under a tag. -/
def runRetrieve : FormatTag → Sys → String → LoadResult
  | .bytes => loadAsBytes
  | .bytesz => loadAsBytesCompressed
  | .json => loadAsJsonZipped

/-- Outcome of `loadAtStart`: the process either goes on to serve, or
terminates via the `log.Fatal` branch, or dies of a runtime panic.  The tag
and the derived filename actually used are recorded. -/
inductive StartOutcome where
  | served (sys : Sys) (itemsAdded : Nat) (tag : FormatTag) (filenameUsed : String)
  | fatal (sys : Sys) (tag : FormatTag) (filenameUsed : String)
  | panicked (sys : Sys) (tag : FormatTag) (filenameUsed : String)
  deriving DecidableEq

/-- `loadAtStart` (`store.go` lines 246-280).  `FILENAME` is the configured
base filename (a global defined outside this file's source, passed here as a
parameter).  Note the faithful shadowing in the fallback branch: Go's
`storagename := "bytes"` declares a fresh block-scoped variable, so the
outer `storagename` — still the unregistered name — is what the derived
filename is built from. -/
def loadAtStart (sys : Sys) (FILENAME : String) (storagename : String)
    (filename : String) (indexed : Bool) : StartOutcome :=
  let retrievetag : FormatTag :=
    match parseFormat storagename with
    | some t => t
    | none =>
      let storagename := "bytes"
      (parseFormat storagename).getD FormatTag.bytes
  let filename := FILENAME ++ "." ++ storagename
  match runRetrieve retrievetag sys filename with
  | .ok sys1 count => .served sys1 count retrievetag filename
  | .err sys1 _ => .fatal sys1 retrievetag filename
  | .panicked sys1 => .panicked sys1 retrievetag filename

/-! Concrete states used by counterexamples and witnesses. -/

/-- The empty process state over an empty file system. -/
def sys0 : Sys := { items := [], maps := [], fs := [], badNames := [] }

/-- A one-item snapshot used to populate demonstration file systems. -/
def demoStore : Store := { Items := [{ fields := [1, 2] }], Maps := [4] }

/-- A state whose file system holds a valid one-item snapshot under
`"base.bytes"` and nothing else. -/
def sysC2 : Sys :=
  { items := [], maps := [],
    fs := [("base.bytes", EncodeItems demoStore)], badNames := [] }

/-- A state with one stored item and one maps entry, whose file `"f"` holds
bytes that are no valid encoding of any `Store`, and whose file `"g"` holds
those same corrupt bytes wrapped in a gzip stream. -/
def sysC5 : Sys :=
  { items := [{ fields := [7] }], maps := [3],
    fs := [("f", [99]), ("g", Compress [99])], badNames := [] }

/-- A two-item snapshot to be loaded over a non-empty collection. -/
def storeC8 : Store :=
  { Items := [{ fields := [1] }, { fields := [2] }], Maps := [9] }

/-- A state holding one prior item, whose file system carries the snapshot
`storeC8` in all three registered formats. -/
def sysC8 : Sys :=
  { items := [{ fields := [0] }], maps := [2],
    fs := [("a.bytes", EncodeItems storeC8),
           ("a.bytesz", Compress (EncodeItems storeC8)),
           ("a.json", Compress (jsonMarshal storeC8))],
    badNames := [] }

/-! Worker lemmas. -/

theorem winv_initial : WInv initialWState := by
  refine ⟨rfl, rfl, rfl, ?_⟩
  intro p hp
  simp [initialWState] at hp

theorem winv_step (st : WState) (itm : Option ItemIn) (h : WInv st) :
    WInv (ItemChanWorkerStep st itm) ∧
      (ItemChanWorkerStep st itm).items.length
        = st.items.length + (if itm.isSome then 1 else 0) ∧
      (ItemChanWorkerStep st itm).label
        = st.label + (if itm.isSome then 1 else 0) := by
  obtain ⟨hd, hlab, hlen, hfresh⟩ := h
  cases itm with
  | none =>
    have hstep : ItemChanWorkerStep st none = st := by
      simp [ItemChanWorkerStep, hd]
    rw [hstep]
    exact ⟨⟨hd, hlab, hlen, hfresh⟩, by simp, by simp⟩
  | some v =>
    have hcond : (st.items ++ [st.heapNext])[st.label]? = some st.heapNext := by
      rw [hlen]; exact List.getElem?_concat_length _ _
    have hstep : ItemChanWorkerStep st (some v) =
        { items := st.items ++ [st.heapNext], label := st.label + 1,
          heapNext := st.heapNext + 1, labeled := st.labeled ++ [st.heapNext],
          dead := false } := by
      simp [ItemChanWorkerStep, hd, hcond]
    rw [hstep]
    refine ⟨⟨rfl, by simp [hlab], by simp [hlen], ?_⟩, by simp, by simp⟩
    show ∀ p ∈ st.items ++ [st.heapNext], p < st.heapNext + 1
    intro p hp
    rcases List.mem_append.mp hp with hp | hp
    · exact Nat.lt_succ_of_lt (hfresh p hp)
    · simp at hp; omega

theorem winv_processBatch (st : WState) (batch : List (Option ItemIn))
    (h : WInv st) :
    WInv (processBatch st batch) ∧
      (processBatch st batch).items.length
        = st.items.length + batch.countP (·.isSome) ∧
      (processBatch st batch).label
        = st.label + batch.countP (·.isSome) := by
  induction batch generalizing st with
  | nil => simpa [processBatch] using h
  | cons itm rest ih =>
    obtain ⟨h1, h2, h3⟩ := winv_step st itm h
    obtain ⟨g1, g2, g3⟩ := ih (ItemChanWorkerStep st itm) h1
    refine ⟨g1, ?_, ?_⟩
    · rw [processBatch, List.foldl_cons, ← processBatch, g2, h2,
        List.countP_cons]
      cases itm <;> simp <;> omega
    · rw [processBatch, List.foldl_cons, ← processBatch, g3, h3,
        List.countP_cons]
      cases itm <;> simp <;> omega

theorem winv_foldl (batches : List (List (Option ItemIn))) (st : WState)
    (h : WInv st) : WInv (batches.foldl processBatch st) := by
  induction batches generalizing st with
  | nil => simpa using h
  | cons b rest ih => exact ih _ ((winv_processBatch st b h).1)

theorem winv_worker (batches : List (List (Option ItemIn))) :
    WInv (ItemChanWorker batches) :=
  winv_foldl batches initialWState winv_initial

/-! Codec lemmas. -/

theorem decBlob_encBlob (b rest : List Nat) :
    decBlob (encBlob b ++ rest) = some (b, rest) := by
  simp [encBlob, decBlob]

theorem decBlob_encBlob_nil (b : List Nat) :
    decBlob (encBlob b) = some (b, []) := by
  simpa using decBlob_encBlob b []

theorem decItemBlob_encItem (i : Item) (rest : List Nat) :
    decItemBlob (encItem i ++ rest) = some (i, rest) := by
  simp [decItemBlob, encItem, decBlob_encBlob]

theorem decItemsN_encItems (l : List Item) (rest : List Nat) :
    decItemsN l.length (encItems l ++ rest) = some (l, rest) := by
  induction l with
  | nil => simp [decItemsN, encItems]
  | cons i t ih =>
    simp [decItemsN, encItems, List.append_assoc, decItemBlob_encItem, ih]

theorem decItemList_encItemList (l : List Item) (rest : List Nat) :
    decItemList (encItemList l ++ rest) = some (l, rest) := by
  simpa [decItemList, encItemList] using decItemsN_encItems l rest

theorem gobDecode_gobEncode (s : Store) : gobDecode (gobEncode s) = some s := by
  simp [gobDecode, gobEncode, decItemList_encItemList, decBlob_encBlob_nil]

theorem jsonDecode_jsonMarshal (s : Store) :
    jsonDecodeOpt (jsonMarshal s) = some s := by
  simp [jsonDecodeOpt, jsonMarshal, gobDecode_gobEncode]

/-! Claim theorems. -/

/-- C1: Label/slot identity invariant.  After the ingestion worker processes
any sequence of batches starting from the empty shared collection, the label
counter equals the number of labels assigned and the shared collection is
exactly the label-assignment record — so for every label L in [0, count),
the collection entry at index L is the record that was assigned label L.
The worker never reaches the fatal branch from this start state. -/
theorem C1_label_slot_invariant (batches : List (List (Option ItemIn))) :
    (ItemChanWorker batches).label = (ItemChanWorker batches).labeled.length ∧
    (ItemChanWorker batches).items = (ItemChanWorker batches).labeled ∧
    (ItemChanWorker batches).dead = false := by
  obtain ⟨hd, hlab, hlen, -⟩ := winv_worker batches
  exact ⟨by rw [hlen, hlab], hlab.symm, hd⟩

/-- C7: Skip semantics.  Processing a batch from any state satisfying the
worker invariant increases the collection length and the label counter by
exactly the number of non-null entries; null entries consume no label and
produce no stored item. -/
theorem C7_skip_semantics (st : WState) (batch : List (Option ItemIn))
    (h : WInv st) :
    (processBatch st batch).items.length
        = st.items.length + batch.countP (·.isSome) ∧
    (processBatch st batch).label = st.label + batch.countP (·.isSome) := by
  obtain ⟨-, h2, h3⟩ := winv_processBatch st batch h
  exact ⟨h2, h3⟩

/-- Witness for C7: a concrete batch with two non-null and one null entry
grows the collection and label counter by exactly 2. -/
theorem C7_skip_semantics_witness :
    WInv initialWState ∧
    (processBatch initialWState [some 5, none, some 6]).items.length
        = initialWState.items.length
          + ([some 5, none, some 6] : List (Option ItemIn)).countP (·.isSome) ∧
    (processBatch initialWState [some 5, none, some 6]).label
        = initialWState.label
          + ([some 5, none, some 6] : List (Option ItemIn)).countP (·.isSome) :=
  ⟨by decide,
    (C7_skip_semantics initialWState [some 5, none, some 6] (by decide)).1,
    (C7_skip_semantics initialWState [some 5, none, some 6] (by decide)).2⟩

/-- C9: Implicit precondition of the worker.  If the shared collection is
non-empty when the worker starts — label counter 0, every stored pointer
older than the next allocation — then processing the first non-null input
record fails the identity check `ITEMS[label] != &smallItem` and terminates
the process fatally: the appended pointer lands at index `len(ITEMS)` while
the check reads index 0. -/
theorem C9_nonempty_start_fatal (st : WState) (itm : ItemIn)
    (hne : st.items ≠ []) (hl : st.label = 0) (hd : st.dead = false)
    (hfresh : ∀ p ∈ st.items, p < st.heapNext) :
    (ItemChanWorkerStep st (some itm)).dead = true := by
  have h0 : 0 < st.items.length := List.length_pos.mpr hne
  have hmem : st.items.get ⟨0, h0⟩ ∈ st.items := List.get_mem st.items 0 h0
  have hlt : st.items.get ⟨0, h0⟩ < st.heapNext := hfresh _ hmem
  have hq : (st.items ++ [st.heapNext])[st.label]?
      = some (st.items.get ⟨0, h0⟩) := by
    rw [hl, List.getElem?_append_left h0, List.getElem?_eq_getElem h0]
    simp [List.get_eq_getElem]
  have hne2 : ¬((st.items ++ [st.heapNext])[st.label]? = some st.heapNext) := by
    rw [hq]
    intro hcon
    rw [Option.some_inj] at hcon
    omega
  simp [ItemChanWorkerStep, hd, hne2]

/-- Witness for C9: a populated one-item collection at worker start dies on
the first non-null record. -/
theorem C9_nonempty_start_fatal_witness :
    wStateC9.items ≠ [] ∧ wStateC9.label = 0 ∧ wStateC9.dead = false ∧
    (∀ p ∈ wStateC9.items, p < wStateC9.heapNext) ∧
    (ItemChanWorkerStep wStateC9 (some 1)).dead = true :=
  ⟨by decide, rfl, rfl, by decide,
    C9_nonempty_start_fatal wStateC9 1 (by decide) rfl rfl (by decide)⟩

/-- C6: Binary round-trip.  Decoding the bytes produced by `EncodeItems`
yields a store whose item collection is equal — same length, same order,
field-equal records — to the original snapshot's collection. -/
theorem C6_binary_round_trip (s : Store) :
    (DecodeToStore (EncodeItems s)).Items = s.Items ∧
    (DecodeToStore (EncodeItems s)).Items.length = s.Items.length := by
  have h : DecodeToStore (EncodeItems s) = s := by
    simp [DecodeToStore, EncodeItems, gobDecode_gobEncode]
  rw [h]
  exact ⟨rfl, rfl⟩

theorem saveAsBytes_items (sys : Sys) (fn : String) :
    (saveAsBytes sys fn).sysOf.items = sys.items := by
  by_cases hb : fn ∈ sys.badNames <;>
    simp only [saveAsBytes, WriteToFile, hb, if_pos, if_neg, if_true, if_false,
      not_false_eq_true] <;>
    split <;> simp [SaveResult.sysOf]

theorem saveAsBytesCompressed_items (sys : Sys) (fn : String) :
    (saveAsBytesCompressed sys fn).sysOf.items = sys.items := by
  by_cases hb : fn ∈ sys.badNames <;>
    simp only [saveAsBytesCompressed, WriteToFile, hb, if_pos, if_neg, if_true,
      if_false, not_false_eq_true] <;>
    split <;> simp [SaveResult.sysOf]

theorem saveAsJsonZipped_items (sys : Sys) (fn : String) :
    (saveAsJsonZipped sys fn).sysOf.items = sys.items := by
  by_cases hb : fn ∈ sys.badNames <;>
    simp only [saveAsJsonZipped, hb, if_pos, if_neg, if_true, if_false,
      not_false_eq_true] <;>
    first
      | simp [SaveResult.sysOf]
      | (split <;> simp [SaveResult.sysOf])

/-- C10: Save operations are read-only on the store.  For every state and
filename, each save path (bytes, bytesz, json) leaves the shared collection
unchanged — same list, same order — whether the save succeeds or returns an
error; `makeStore` only reads `ITEMS` and the save paths never assign to
it. -/
theorem C10_save_read_only (sys : Sys) (fn : String) :
    (saveAsBytes sys fn).sysOf.items = sys.items ∧
    (saveAsBytesCompressed sys fn).sysOf.items = sys.items ∧
    (saveAsJsonZipped sys fn).sysOf.items = sys.items :=
  ⟨saveAsBytes_items sys fn, saveAsBytesCompressed_items sys fn,
    saveAsJsonZipped_items sys fn⟩

/-- C2, evaluating the code at the failing input: requesting the unregistered
format name "cbor" does invoke the bytes load function, but — because the
fallback assignment writes a block-scoped shadow of `storagename` — the
derived filename is "base.cbor", not "base.bytes": the loader misses the
existing "base.bytes" snapshot and serves an empty collection. -/
theorem C2_fallback_filename_bug :
    parseFormat "cbor" = none ∧
    loadAtStart sysC2 "base" "cbor" "cli" true
        = StartOutcome.served sysC2 0 FormatTag.bytes "base.cbor" ∧
    "base.cbor" ≠ "base.bytes" :=
  ⟨rfl, rfl, by decide⟩

/-- C3 counterexample: with an empty file system (reading "nofile" fails),
`loadAsBytes` still returns a nil error and item count 0 — the read failure
is swallowed, not propagated. -/
theorem C3_counterexample :
    sys0.fs.lookup "nofile" = none ∧
    loadAsBytes sys0 "nofile" = LoadResult.ok sys0 0 :=
  ⟨rfl, rfl⟩

/-- C3 amended: among the ad hoc loads, only the json path returns a non-nil
error when the file cannot be read; the bytes and bytesz loads never return
an error for any input — read and decode failures are printed and swallowed
(bytesz can die of a panic instead of reporting). -/
theorem C3_error_propagation_amended (sys : Sys) (fn : String)
    (h : sys.fs.lookup fn = none) :
    (loadAsBytes sys fn).returnsError = false ∧
    (loadAsBytesCompressed sys fn).returnsError = false ∧
    loadAsJsonZipped sys fn = LoadResult.err sys "open" := by
  refine ⟨rfl, ?_, ?_⟩
  · cases hD : Decompress (ReadFromFile sys fn) <;>
      simp [loadAsBytesCompressed, hD, LoadResult.returnsError]
  · simp [loadAsJsonZipped, h]

/-- Witness for the amended C3 at a concrete state and filename. -/
theorem C3_error_propagation_amended_witness :
    sys0.fs.lookup "nofile2" = none ∧
    ((loadAsBytes sys0 "nofile2").returnsError = false ∧
     (loadAsBytesCompressed sys0 "nofile2").returnsError = false ∧
     loadAsJsonZipped sys0 "nofile2" = LoadResult.err sys0 "open") :=
  ⟨rfl, C3_error_propagation_amended sys0 "nofile2" rfl⟩

/-- C4 counterexample: bootstrapping with format "bytes" and a file that does
not exist does NOT terminate the process — `loadAtStart` reports success
(item count 0) and the process goes on to serve with an empty collection. -/
theorem C4_counterexample :
    sys0.fs.lookup "base.bytes" = none ∧
    loadAtStart sys0 "base" "bytes" "cli" true
        = StartOutcome.served sys0 0 FormatTag.bytes "base.bytes" :=
  ⟨rfl, rfl⟩

/-- C4 amended: bootstrap failure on a missing file is fatal only on the
json path, whose load returns an error that reaches the `log.Fatal` branch;
the bytes format silently decodes the empty read to the zero store and
continues serving, and the bytesz format dies of a nil-reader panic rather
than the `log.Fatal` branch. -/
theorem C4_bootstrap_failure_amended (sys : Sys) (base fn : String) (ix : Bool)
    (hB : sys.fs.lookup (base ++ "." ++ "bytes") = none)
    (hZ : sys.fs.lookup (base ++ "." ++ "bytesz") = none)
    (hJ : sys.fs.lookup (base ++ "." ++ "json") = none) :
    loadAtStart sys base "json" fn ix
        = StartOutcome.fatal sys FormatTag.json (base ++ "." ++ "json") ∧
    loadAtStart sys base "bytes" fn ix
        = StartOutcome.served { sys with items := [], maps := [] } 0
            FormatTag.bytes (base ++ "." ++ "bytes") ∧
    loadAtStart sys base "bytesz" fn ix
        = StartOutcome.panicked sys FormatTag.bytesz (base ++ "." ++ "bytesz") := by
  refine ⟨?_, ?_, ?_⟩
  · simp [loadAtStart, parseFormat, runRetrieve, loadAsJsonZipped, hJ]
  · simp [loadAtStart, parseFormat, runRetrieve, loadAsBytes, ReadFromFile, hB,
      DecodeToStore, gobDecode, decItemList, restoreStore]
  · simp [loadAtStart, parseFormat, runRetrieve, loadAsBytesCompressed,
      ReadFromFile, hZ, Decompress, gzipUnwrap]

/-- Witness for the amended C4 at a concrete state and base filename. -/
theorem C4_bootstrap_failure_amended_witness :
    sys0.fs.lookup ("base" ++ "." ++ "bytes") = none ∧
    sys0.fs.lookup ("base" ++ "." ++ "bytesz") = none ∧
    sys0.fs.lookup ("base" ++ "." ++ "json") = none ∧
    (loadAtStart sys0 "base" "json" "cli" true
        = StartOutcome.fatal sys0 FormatTag.json ("base" ++ "." ++ "json") ∧
     loadAtStart sys0 "base" "bytes" "cli" true
        = StartOutcome.served { sys0 with items := [], maps := [] } 0
            FormatTag.bytes ("base" ++ "." ++ "bytes") ∧
     loadAtStart sys0 "base" "bytesz" "cli" true
        = StartOutcome.panicked sys0 FormatTag.bytesz ("base" ++ "." ++ "bytesz")) :=
  ⟨rfl, rfl, rfl,
    C4_bootstrap_failure_amended sys0 "base" "cli" true rfl rfl rfl⟩

/-- C5 counterexample: the file "f" holds bytes `[99]` that fail to decode
(no `Store` has that encoding), yet `loadAsBytes` replaces the one-item
collection and the maps blob with the zero-value store — prior state is not
left unchanged on a decode failure. -/
theorem C5_counterexample :
    gobDecode [99] = none ∧
    sysC5.items = [{ fields := [7] }] ∧
    loadAsBytes sysC5 "f"
        = LoadResult.ok { sysC5 with items := [], maps := [] } 0 ∧
    ({ sysC5 with items := [], maps := [] } : Sys).items ≠ sysC5.items :=
  ⟨rfl, rfl, rfl, by decide⟩

/-- C5 amended: on the bytes and bytesz paths a decode failure does NOT
leave shared state unchanged — `DecodeToStore` returns the zero-value store
and `restoreStore` is invoked unconditionally, emptying `ITEMS` and `Maps`;
only the json path returns before `restoreStore` when its open step fails,
leaving prior state untouched. -/
theorem C5_restore_atomicity_amended (sys : Sys) (fnB fnZ fnJ : String)
    (b : List Nat)
    (hB : sys.fs.lookup fnB = some b) (hdec : gobDecode b = none)
    (hZ : sys.fs.lookup fnZ = some (Compress b))
    (hJ : sys.fs.lookup fnJ = none) :
    loadAsBytes sys fnB
        = LoadResult.ok { sys with items := [], maps := [] } 0 ∧
    loadAsBytesCompressed sys fnZ
        = LoadResult.ok { sys with items := [], maps := [] } 0 ∧
    loadAsJsonZipped sys fnJ = LoadResult.err sys "open" := by
  refine ⟨?_, ?_, ?_⟩
  · simp [loadAsBytes, ReadFromFile, hB, DecodeToStore, hdec, restoreStore]
  · simp [loadAsBytesCompressed, ReadFromFile, hZ, Decompress, Compress,
      gzipWrap, gzipUnwrap, DecodeToStore, hdec, restoreStore]
  · simp [loadAsJsonZipped, hJ]

/-- Witness for the amended C5 at a concrete corrupt file system. -/
theorem C5_restore_atomicity_amended_witness :
    sysC5.fs.lookup "f" = some [99] ∧ gobDecode [99] = none ∧
    sysC5.fs.lookup "g" = some (Compress [99]) ∧
    sysC5.fs.lookup "h" = none ∧
    (loadAsBytes sysC5 "f"
        = LoadResult.ok { sysC5 with items := [], maps := [] } 0 ∧
     loadAsBytesCompressed sysC5 "g"
        = LoadResult.ok { sysC5 with items := [], maps := [] } 0 ∧
     loadAsJsonZipped sysC5 "h" = LoadResult.err sysC5 "open") :=
  ⟨rfl, rfl, rfl, rfl,
    C5_restore_atomicity_amended sysC5 "f" "g" "h" [99] rfl rfl rfl rfl⟩

/-- C8: Restore replaces, not merges.  Loading a file holding a snapshot of
N items while the in-memory collection holds a nonzero number of items
results in exactly the N loaded items (and the loaded maps blob) for each
registered format — including json, whose decode target is seeded from the
current store via `makeStore()` but fully overwritten by a successful
unmarshal. -/
theorem C8_restore_replaces (sys : Sys) (s : Store) (fnB fnZ fnJ : String)
    (_hM : sys.items ≠ [])
    (hB : sys.fs.lookup fnB = some (EncodeItems s))
    (hZ : sys.fs.lookup fnZ = some (Compress (EncodeItems s)))
    (hJ : sys.fs.lookup fnJ = some (Compress (jsonMarshal s))) :
    loadAsBytes sys fnB
        = LoadResult.ok { sys with items := s.Items, maps := s.Maps }
            s.Items.length ∧
    loadAsBytesCompressed sys fnZ
        = LoadResult.ok { sys with items := s.Items, maps := s.Maps }
            s.Items.length ∧
    loadAsJsonZipped sys fnJ
        = LoadResult.ok { sys with items := s.Items, maps := s.Maps }
            s.Items.length := by
  have hdec : DecodeToStore (EncodeItems s) = s := by
    simp [DecodeToStore, EncodeItems, gobDecode_gobEncode]
  refine ⟨?_, ?_, ?_⟩
  · simp [loadAsBytes, ReadFromFile, hB, hdec, restoreStore]
  · simp [loadAsBytesCompressed, ReadFromFile, hZ, Decompress, Compress,
      gzipWrap, gzipUnwrap, hdec, restoreStore]
  · simp [loadAsJsonZipped, hJ, Compress, gzipWrap, gzipUnwrap,
      jsonDecode_jsonMarshal, restoreStore]

/-- Witness for C8: a two-item snapshot loaded over a one-item collection,
in each of the three formats. -/
theorem C8_restore_replaces_witness :
    sysC8.items ≠ [] ∧
    sysC8.fs.lookup "a.bytes" = some (EncodeItems storeC8) ∧
    sysC8.fs.lookup "a.bytesz" = some (Compress (EncodeItems storeC8)) ∧
    sysC8.fs.lookup "a.json" = some (Compress (jsonMarshal storeC8)) ∧
    (loadAsBytes sysC8 "a.bytes"
        = LoadResult.ok
            { sysC8 with items := storeC8.Items, maps := storeC8.Maps }
            storeC8.Items.length ∧
     loadAsBytesCompressed sysC8 "a.bytesz"
        = LoadResult.ok
            { sysC8 with items := storeC8.Items, maps := storeC8.Maps }
            storeC8.Items.length ∧
     loadAsJsonZipped sysC8 "a.json"
        = LoadResult.ok
            { sysC8 with items := storeC8.Items, maps := storeC8.Maps }
            storeC8.Items.length) :=
  ⟨by decide, rfl, rfl, rfl,
    C8_restore_replaces sysC8 storeC8 "a.bytes" "a.bytesz" "a.json"
      (by decide) rfl rfl rfl⟩

end LambdaDB
